import Mathlib

/-!
# Verification of the XTDB storage client (`gateway/storage/xtdb.go`)

This file gives a shallow embedding of the client-side protocol logic of the
XTDB HTTP storage client and proves the spec's testable properties about it.

Modelling conventions:
* An HTTP request is modelled by its method, URL, explicit headers, and body.
  URL query-string assembly (`q.Encode()`) is modelled by plain concatenation
  with keys in the alphabetical order `q.Encode()` produces.
* The network is an oracle `net : HttpRequest → Except String HttpResponse`;
  `.error e` models a transport failure of `client.Do`/`http.Get` (the Go
  `err != nil` branch), `.ok resp` a delivered response.  Reading the response
  body is folded into the oracle (the `io.ReadAll` error path is not modelled
  separately).
* External serialization libraries (`edn.Marshal`, `edn.Unmarshal`,
  `json.Marshal`, `json.Unmarshal`, the receipt decoders) are parameters of
  the modelled operations, since their code is outside this repository.
  A receipt decoder returns the value the Go variable holds after the decode
  call together with an optional decode error, mirroring
  `edn.NewDecoder(resp.Body).Decode(&txResponse)`.
* Go slice indexing that can panic is modelled by `Option`/a dedicated
  `panicked` constructor, never by a default value.
* Time in `Sync` is modelled by natural-number instants: `time.Second * 2`
  is 2 units and each poll attempt has an arbitrary duration.  The data race
  between the polling goroutine's `append` and the caller's read of
  `response` at the deadline is resolved deterministically: the caller's read
  at the deadline sees exactly the entries appended strictly before the
  deadline (the caller wakes at the deadline and reads immediately, while the
  goroutine is still inside its HTTP call or sleep).
-/

namespace XtdbClient

/-- An HTTP request as the Go client builds it: method, full URL, the
explicitly set headers (in the order they are set), and the body. -/
structure HttpRequest where
  method : String
  url : String
  headers : List (String × String)
  body : String
deriving DecidableEq, Repr

/-- An HTTP response: status code and body bytes (as a string). -/
structure HttpResponse where
  statusCode : Nat
  body : String
deriving DecidableEq, Repr

/-- The value of an explicitly set header of a request, if any. -/
def headerVal (r : HttpRequest) (key : String) : Option String :=
  (r.headers.find? (fun p => p.1 = key)).map (fun p => p.2)

/-- The transaction receipt `TxResponse` (`xtdb.api/tx-id`, `xtdb.api/tx-time`);
the timestamp is modelled abstractly as an integer. -/
structure TxResponse where
  txId : Int
  txTime : Int
deriving DecidableEq, Repr

/-- The request `SubmitPutTx`/`SubmitEvictTx` build: POST to
`{address}/_xtdb/submit-tx` with EDN content-type and accept headers. -/
def submitTxReq (address body : String) : HttpRequest :=
  { method := "POST", url := address ++ "/_xtdb/submit-tx",
    headers := [("content-type", "application/edn"), ("accept", "application/edn")],
    body := body }

/-- The request `PersistEntities` builds: POST to `{address}/_xtdb/submit-tx`
with JSON content-type and accept headers. -/
def persistTxReq (address body : String) : HttpRequest :=
  { method := "POST", url := address ++ "/_xtdb/submit-tx",
    headers := [("content-type", "application/json"), ("accept", "application/json")],
    body := body }

/-- The request `GetEntity` builds: GET `{address}/_xtdb/entity?eid={id}`,
only an accept header, no body. -/
def getEntityReq (address eid : String) : HttpRequest :=
  { method := "GET", url := address ++ "/_xtdb/entity?eid=" ++ eid,
    headers := [("accept", "application/edn")],
    body := "" }

/-- The request `GetEntityHistory` builds (query keys in `q.Encode()`'s
alphabetical order), only an accept header, no body. -/
def getEntityHistoryReq (address eid sortOrder : String) (withDocs : Bool) : HttpRequest :=
  { method := "GET",
    url := address ++ "/_xtdb/entity?eid=" ++ eid ++ "&history=true&sort-order=" ++ sortOrder
             ++ "&with-docs=" ++ (if withDocs then "true" else "false"),
    headers := [("accept", "application/edn")],
    body := "" }

/-- The request `AwaitTx` issues via `http.Get`: no explicit headers at all. -/
def awaitTxReq (address : String) (txID : Int) : HttpRequest :=
  { method := "GET",
    url := address ++ "/_xtdb/await-tx?tx-id=" ++ toString txID ++ "&timeout=5000",
    headers := [], body := "" }

/-- The request `queryRequest` builds: POST to `{address}/_xtdb/query` with
the body always EDN (`content-type: application/edn`) and `accept` set to the
caller-chosen response content type. -/
def queryReq (address ednQuery contentType : String) : HttpRequest :=
  { method := "POST", url := address ++ "/_xtdb/query",
    headers := [("accept", contentType), ("content-type", "application/edn")],
    body := ednQuery }

/-- The request each poll of `Sync` issues via `http.Get`: no explicit
headers. -/
def syncReq (address : String) (timeoutMs : Nat) : HttpRequest :=
  { method := "GET",
    url := address ++ "/_xtdb/sync?timeout=" ++ toString timeoutMs,
    headers := [], body := "" }

/-- `AwaitTx`: one GET to the await-tx endpoint; a transport error or any
status other than 200 is an error naming the transaction id (and, for a
delivered response, the status code and body). -/
def AwaitTx (net : HttpRequest → Except String HttpResponse) (address : String)
    (txID : Int) : Except String Unit :=
  match net (awaitTxReq address txID) with
  | .error e => .error ("failed awaiting transaction " ++ toString txID ++ ", err=" ++ e)
  | .ok resp =>
      if resp.statusCode ≠ 200 then
        .error ("failed awaiting transaction " ++ toString txID ++ ", code="
                  ++ toString resp.statusCode ++ ", response=" ++ resp.body)
      else .ok ()

/-- `GetEntity`: returns the issued requests and the Go result, where
`.ok none` models the `(nil, nil)` return on 404 and `.ok (some b)` the body
on 200. -/
def GetEntity (net : HttpRequest → Except String HttpResponse) (address eid : String) :
    List HttpRequest × Except String (Option String) :=
  let req := getEntityReq address eid
  match net req with
  | .error e => ([req], .error e)
  | .ok resp =>
      if resp.statusCode = 200 then ([req], .ok (some resp.body))
      else if resp.statusCode = 404 then ([req], .ok none)
      else ([req], .error ("unknown http response returned fetching entity, status="
                             ++ toString resp.statusCode))

/-- `GetEntityHistory`: rejects a sort order other than "asc"/"desc" before
building any request; otherwise one GET with the same 200/404/other status
mapping as `GetEntity`. -/
def GetEntityHistory (net : HttpRequest → Except String HttpResponse)
    (address eid sortOrder : String) (withDocs : Bool) :
    List HttpRequest × Except String (Option String) :=
  if sortOrder ≠ "asc" ∧ sortOrder ≠ "desc" then
    ([], .error "wrong sort order input, accept 'asc' or 'desc'")
  else
    let req := getEntityHistoryReq address eid sortOrder withDocs
    match net req with
    | .error e => ([req], .error e)
    | .ok resp =>
        if resp.statusCode = 200 then ([req], .ok (some resp.body))
        else if resp.statusCode = 404 then ([req], .ok none)
        else ([req], .error ("unknown status code (" ++ toString resp.statusCode
                               ++ "), response=" ++ resp.body))

/-- `buildTrxPutEdn`'s loop body: marshal each record (via the `edn.Marshal`
parameter) and wrap it as a put operation; the loop returns the first
per-record marshalling error and emits nothing on failure. -/
def putOps {α : Type} (marshal : α → Except String String) :
    List α → Except String (List String)
  | [] => .ok []
  | tx :: rest =>
      match marshal tx with
      | .error e => .error e
      | .ok txEdn =>
          match putOps marshal rest with
          | .error e => .error e
          | .ok v => .ok (("[:xtdb.api/put " ++ txEdn ++ "]") :: v)

/-- `buildTrxPutEdn`: the put-batch envelope
`\x7b:tx-ops [ ...ops... ]\x7d`, operations joined with no separator; fails
with the first record's marshalling error, emitting no envelope. -/
def buildTrxPutEdn {α : Type} (marshal : α → Except String String)
    (trxs : List α) : Except String String :=
  match putOps marshal trxs with
  | .error e => .error e
  | .ok v => .ok ("\x7b:tx-ops [" ++ String.join v ++ "]\x7d")

/-- `buildTrxEvictEdn`: the evict-batch envelope.  The Go function's error
result is always nil, so it is modelled as a total function. -/
def buildTrxEvictEdn (xtIDs : List String) : String :=
  "\x7b:tx-ops [" ++ String.join (xtIDs.map (fun xtID =>
    "[:xtdb.api/evict " ++ String.quote xtID ++ "]")) ++ "]\x7d"

/-- The shared 202-branch of the submit operations: decode the receipt
(decode failure only logged), and when the receipt carries a positive
transaction id call `AwaitTx` (its failure only logged); returns the extra
requests issued, the log lines, and the receipt returned to the caller. -/
def handleAccepted (net : HttpRequest → Except String HttpResponse)
    (decodeTx : String → TxResponse × Option String) (address respBody : String) :
    List HttpRequest × List String × TxResponse :=
  let dec := decodeTx respBody
  let logs1 := match dec.2 with
    | some e => ["error decoding transaction response, err=" ++ e]
    | none => []
  if dec.1.txId > 0 then
    match AwaitTx net address dec.1.txId with
    | .error e => ([awaitTxReq address dec.1.txId], logs1 ++ [e], dec.1)
    | .ok _ => ([awaitTxReq address dec.1.txId], logs1, dec.1)
  else ([], logs1, dec.1)

/-- `SubmitPutTx`: build the EDN put batch (failing before any request on a
marshalling error), POST it, and on 202 return the best-effort receipt; any
other status is an error carrying the status code.  Returns
(requests issued, log lines, result). -/
def SubmitPutTx {α : Type} (marshal : α → Except String String)
    (net : HttpRequest → Except String HttpResponse)
    (decodeTx : String → TxResponse × Option String)
    (address : String) (trxs : List α) :
    List HttpRequest × List String × Except String TxResponse :=
  match buildTrxPutEdn marshal trxs with
  | .error e => ([], [], .error e)
  | .ok txOpsEdn =>
      let req := submitTxReq address txOpsEdn
      match net req with
      | .error e => ([req], [], .error e)
      | .ok resp =>
          if resp.statusCode = 202 then
            let h := handleAccepted net decodeTx address resp.body
            (req :: h.1, h.2.1, .ok h.2.2)
          else
            ([req], ["unknown status code=" ++ toString resp.statusCode
                       ++ ", body=" ++ resp.body],
             .error ("received unknown status code=" ++ toString resp.statusCode))

/-- `SubmitEvictTx`: fails immediately (no request) on an empty identity
list; otherwise same contract as `SubmitPutTx` over the evict batch. -/
def SubmitEvictTx (net : HttpRequest → Except String HttpResponse)
    (decodeTx : String → TxResponse × Option String)
    (address : String) (xtIDs : List String) :
    List HttpRequest × List String × Except String TxResponse :=
  if xtIDs.isEmpty then ([], [], .error "need at least one xt/id to evict")
  else
    let req := submitTxReq address (buildTrxEvictEdn xtIDs)
    match net req with
    | .error e => ([req], [], .error e)
    | .ok resp =>
        if resp.statusCode = 202 then
          let h := handleAccepted net decodeTx address resp.body
          (req :: h.1, h.2.1, .ok h.2.2)
        else
          ([req], ["unknown status code=" ++ toString resp.statusCode
                     ++ ", body=" ++ resp.body],
           .error ("received unknown status code=" ++ toString resp.statusCode))

/-- `buildPersistPayload` wraps each payload as a JSON `["put", payload]`
operation inside a `tx-ops` envelope; the JSON serializer is a parameter
(`json.Marshal` is external), applied to the whole envelope. -/
def buildPersistPayload {β : Type} (jsonMarshalEnvelope : List β → Except String String)
    (payloads : List β) : Except String String :=
  jsonMarshalEnvelope payloads

/-- `PersistEntities`: JSON submit; on 202 the decoded receipt's transaction
id is returned with no error (decode / await failures only logged); any
other status is the error "not 202". -/
def PersistEntities {β : Type} (jsonMarshalEnvelope : List β → Except String String)
    (net : HttpRequest → Except String HttpResponse)
    (decodeTx : String → TxResponse × Option String)
    (address : String) (payloads : List β) :
    List HttpRequest × List String × Except String Int :=
  match buildPersistPayload jsonMarshalEnvelope payloads with
  | .error e => ([], [], .error e)
  | .ok bytePayload =>
      let req := persistTxReq address bytePayload
      match net req with
      | .error e => ([req], [], .error e)
      | .ok resp =>
          if resp.statusCode = 202 then
            let h := handleAccepted net decodeTx address resp.body
            (req :: h.1, h.2.1, .ok h.2.2.txId)
          else ([req], [], .error "not 202")

/-- The result of a Go function that may panic: `panicked` models a runtime
panic (no value returned), `err` the error return, `ok` the success value. -/
inductive GoResult (α : Type) where
  | panicked
  | err (msg : String)
  | ok (val : α)
deriving DecidableEq, Repr

/-- `queryRequest`: POST the query and return the response body verbatim —
the Go function performs no status-code check. -/
def queryRequest (net : HttpRequest → Except String HttpResponse)
    (address ednQuery contentType : String) :
    List HttpRequest × Except String String :=
  let req := queryReq address ednQuery contentType
  match net req with
  | .error e => ([req], .error e)
  | .ok resp => ([req], .ok resp.body)

/-- The normalization loop of `Query`/`QueryAsJson`:
`for _, l := range p { r = append(r, l[0]) }`.  Indexing `l[0]` on an empty
row panics, which aborts the whole loop (`none`). -/
def normalizeRows {Row : Type} : List (List Row) → Option (List Row)
  | [] => some []
  | [] :: _ => none
  | (x :: _) :: rest => (normalizeRows rest).map (fun r => x :: r)

/-- The common shape of `Query` and `QueryAsJson`: fetch via `queryRequest`,
decode the body as rows of columns, keep each row's first column, and
re-serialize.  `decode`/`encode` are the external codec of the chosen
content type. -/
def queryModel {Row : Type} (decode : String → Except String (List (List Row)))
    (encode : List Row → Except String String)
    (net : HttpRequest → Except String HttpResponse)
    (address ednQuery contentType : String) : GoResult String :=
  match (queryRequest net address ednQuery contentType).2 with
  | .error e => .err e
  | .ok b =>
      match decode b with
      | .error e => .err e
      | .ok p =>
          match normalizeRows p with
          | none => .panicked
          | some r =>
              match encode r with
              | .error e => .err e
              | .ok response => .ok response

/-- `Query`: the EDN instance of `queryModel` (accept header
`application/edn`, EDN codec). -/
def Query {Row : Type} (ednDecode : String → Except String (List (List Row)))
    (ednEncode : List Row → Except String String)
    (net : HttpRequest → Except String HttpResponse)
    (address ednQuery : String) : GoResult String :=
  queryModel ednDecode ednEncode net address ednQuery "application/edn"

/-- `QueryAsJson`: the JSON instance of `queryModel` (accept header
`application/json`, JSON codec; the query body stays EDN). -/
def QueryAsJson {Row : Type} (jsonDecode : String → Except String (List (List Row)))
    (jsonEncode : List Row → Except String String)
    (net : HttpRequest → Except String HttpResponse)
    (address ednQuery : String) : GoResult String :=
  queryModel jsonDecode jsonEncode net address ednQuery "application/json"

/-- The outcome of one poll (`http.Get` on the sync endpoint): success is a
delivered status-200 response; `netErr` is a transport error; `badStatus`
a delivered non-200 response. -/
inductive PollOutcome where
  | success
  | netErr (msg : String)
  | badStatus (code : Nat) (body : String)
deriving DecidableEq, Repr

/-- One poll attempt of `Sync`: how long the HTTP call takes (time units)
and its outcome. -/
structure Poll where
  dur : Nat
  out : PollOutcome
deriving DecidableEq, Repr

/-- The failure line `Sync` appends to `response` for attempt `i`
(`attempt=%v, failed sync xtdb, ...`); unused for a successful poll. -/
def pollFailMsg (i : Nat) : PollOutcome → String
  | .success => ""
  | .netErr m => "attempt=" ++ toString i ++ ", failed sync xtdb, error=" ++ m
  | .badStatus c b =>
      "attempt=" ++ toString i ++ ", failed sync xtdb, status=" ++ toString c
        ++ ", response=" ++ b

/-- `Sync`'s final error: nil when the accumulated `response` slice is empty,
otherwise the entries joined with "; ". -/
def syncErrOf (acc : List String) : Option String :=
  if acc.isEmpty then none else some (String.intercalate "; " acc)

/-- The caller-observable run of `Sync` with deadline `T`, attempt `i`
starting at instant `e` with failure log `acc`: the caller wakes at
`min`(deadline, instant of `cancelFn`) and reads the log entries appended
strictly before it woke.  A failed attempt takes `dur + 2` units (HTTP call
plus the 2-second sleep).  Returns (instant the caller's `Sync` call
returns, its error result).  `fuel` bounds the iterations; since every
failed iteration advances `e` by at least 2, `fuel = T + 1` always suffices
(the fuel-exhausted fallback coincides with the deadline branch whenever
`T ≤ e + 2 * fuel`). -/
def syncMainLoop (polls : Nat → Poll) (T : Nat) :
    Nat → Nat → Nat → List String → Nat × Option String
  | 0, _, _, acc => (T, syncErrOf acc)
  | fuel + 1, i, e, acc =>
      if T ≤ e then (T, syncErrOf acc)
      else
        let p := polls i
        let c := e + p.dur
        if p.out = .success then
          if c < T then (c, none) else (T, syncErrOf acc)
        else
          if c < T then
            syncMainLoop polls T fuel (i + 1) (c + 2) (acc ++ [pollFailMsg i p.out])
          else (T, syncErrOf acc)

/-- `Sync(timeout = T)` as the caller observes it: attempt numbering starts
at 1 at instant 0 with an empty failure log. -/
def syncMainRun (polls : Nat → Poll) (T : Nat) : Nat × Option String :=
  syncMainLoop polls T (T + 1) 1 0 []

/-- The failure lines recorded (appended to `response`) strictly before the
deadline `T`, starting from attempt `i` at instant `e`. -/
def syncRecordedLoop (polls : Nat → Poll) (T : Nat) : Nat → Nat → Nat → List String
  | 0, _, _ => []
  | fuel + 1, i, e =>
      if T ≤ e then []
      else
        let p := polls i
        let c := e + p.dur
        if p.out = .success then []
        else
          if c < T then pollFailMsg i p.out :: syncRecordedLoop polls T fuel (i + 1) (c + 2)
          else []

/-- All failure lines `Sync(timeout = T)` records before its deadline. -/
def syncRecorded (polls : Nat → Poll) (T : Nat) : List String :=
  syncRecordedLoop polls T (T + 1) 1 0

/-- The instant at which attempt `k ≥ 1` of `Sync`'s polling loop starts,
assuming every earlier attempt failed: attempt 1 starts at 0 and a failed
attempt `k` is followed, `dur k + 2` units later, by attempt `k + 1`. -/
def attemptStart (polls : Nat → Poll) : Nat → Nat
  | 0 => 0
  | 1 => 0
  | k + 2 => attemptStart polls (k + 1) + (polls (k + 1)).dur + 2

/-- The polling goroutine of `Sync`, run for `fuel` iterations of its
`select` loop: once the context deadline `T` has passed, the `ctx.Done()`
case is always the one ready, which appends "timeout reached" and loops
again without breaking; a successful poll breaks out of the loop
(`some` = the loop terminated at that instant, `none` = still looping when
the fuel ran out). -/
def syncGoroutineLoop (polls : Nat → Poll) (T : Nat) :
    Nat → Nat → Nat → List String → Option Nat
  | 0, _, _, _ => none
  | fuel + 1, i, e, acc =>
      if T ≤ e then
        syncGoroutineLoop polls T fuel i e (acc ++ ["timeout reached"])
      else
        let p := polls i
        let c := e + p.dur
        if p.out = .success then some c
        else syncGoroutineLoop polls T fuel (i + 1) (c + 2) (acc ++ [pollFailMsg i p.out])

/-- The tail of `Query`/`QueryAsJson`: return the serializer's error, or the
serialized bytes. -/
def exceptToGo : Except String String → GoResult String
  | .error e => .err e
  | .ok s => .ok s

/-- The property claimed of every request: its explicit accept and
content-type headers both name one and the same encoding. -/
def reqMatchesSingleEncoding (r : HttpRequest) : Prop :=
  ∃ enc, headerVal r "accept" = some enc ∧ headerVal r "content-type" = some enc

end XtdbClient

namespace XtdbClient

theorem normalizeRows_of_mem_nil {Row : Type} :
    ∀ p : List (List Row), [] ∈ p → normalizeRows p = none := by
  intro p
  induction p with
  | nil => intro hp; cases hp
  | cons l rest ih =>
      intro hp
      cases l with
      | nil => rfl
      | cons x xs =>
          cases hp with
          | tail _ h => simp [normalizeRows, ih h]

theorem normalizeRows_heads {Row : Type} :
    ∀ p : List (List Row), (∀ l ∈ p, l ≠ []) →
      ∃ r, normalizeRows p = some r ∧ r.length = p.length
        ∧ r.map some = p.map List.head? := by
  intro p hp
  induction p with
  | nil => exact ⟨[], rfl, rfl, rfl⟩
  | cons l rest ih =>
      obtain ⟨r, hr, hlen, hheads⟩ := ih (fun l hl => hp l (List.mem_cons_of_mem _ hl))
      cases l with
      | nil => exact absurd rfl (hp [] (List.mem_cons_self _ _))
      | cons x xs =>
          refine ⟨x :: r, ?_, ?_, ?_⟩
          · simp [normalizeRows, hr]
          · simp [hlen]
          · simp [hheads]

/-- C5: `SubmitEvictTx` on the empty identity list returns an error
immediately and issues no HTTP request; on every non-empty list it issues
the evict submission request. -/
theorem c5_evict_empty_guard (net : HttpRequest → Except String HttpResponse)
    (decodeTx : String → TxResponse × Option String) (address : String) :
    SubmitEvictTx net decodeTx address []
        = ([], [], .error "need at least one xt/id to evict")
    ∧ ∀ xtIDs : List String, xtIDs ≠ [] →
        ∃ rest, (SubmitEvictTx net decodeTx address xtIDs).1
          = submitTxReq address (buildTrxEvictEdn xtIDs) :: rest := by
  constructor
  · rfl
  · intro xtIDs h
    have he : xtIDs.isEmpty = false := by
      cases xtIDs with
      | nil => exact absurd rfl h
      | cons a l => rfl
    simp only [SubmitEvictTx, he, Bool.false_eq_true, if_false]
    cases net (submitTxReq address (buildTrxEvictEdn xtIDs)) with
    | error e => exact ⟨[], rfl⟩
    | ok resp =>
        by_cases hs : resp.statusCode = 202
        · exact ⟨(handleAccepted net decodeTx address resp.body).1, by simp [hs]⟩
        · exact ⟨[], by simp [hs]⟩

/-- Witness for C5 at a concrete non-empty identity list. -/
theorem c5_witness :
    ∃ rest, (SubmitEvictTx (fun _ => .error "conn refused")
        (fun _ => (⟨0, 0⟩, none)) "http://x" ["id1"]).1
      = submitTxReq "http://x" (buildTrxEvictEdn ["id1"]) :: rest :=
  (c5_evict_empty_guard (fun _ => .error "conn refused")
    (fun _ => (⟨0, 0⟩, none)) "http://x").2 ["id1"] (by decide)

/-- C6: `GetEntityHistory` rejects any sort order other than "asc"/"desc"
with a caller error and no HTTP request; for the two accepted tokens it
issues the history request. -/
theorem c6_history_sort_order (net : HttpRequest → Except String HttpResponse)
    (address eid : String) (withDocs : Bool) :
    (∀ sortOrder, sortOrder ≠ "asc" → sortOrder ≠ "desc" →
       GetEntityHistory net address eid sortOrder withDocs
         = ([], .error "wrong sort order input, accept 'asc' or 'desc'"))
    ∧ (∀ sortOrder, sortOrder = "asc" ∨ sortOrder = "desc" →
       (GetEntityHistory net address eid sortOrder withDocs).1
         = [getEntityHistoryReq address eid sortOrder withDocs]) := by
  constructor
  · intro sortOrder h1 h2
    simp [GetEntityHistory, h1, h2]
  · intro sortOrder h
    have hcond : ¬(sortOrder ≠ "asc" ∧ sortOrder ≠ "desc") := by
      rcases h with h | h <;> simp [h]
    simp only [GetEntityHistory, hcond, if_false]
    cases net (getEntityHistoryReq address eid sortOrder withDocs) with
    | error e => rfl
    | ok resp =>
        by_cases h200 : resp.statusCode = 200
        · simp [h200]
        · by_cases h404 : resp.statusCode = 404 <;> simp [h200, h404]

/-- Witness for C6: a rejected sort order and an accepted one. -/
theorem c6_witness :
    GetEntityHistory (fun _ => .ok ⟨200, "hist"⟩) "http://x" "e1" "up" true
      = ([], .error "wrong sort order input, accept 'asc' or 'desc'")
    ∧ (GetEntityHistory (fun _ => .ok ⟨200, "hist"⟩) "http://x" "e1" "asc" true).1
      = [getEntityHistoryReq "http://x" "e1" "asc" true] :=
  ⟨(c6_history_sort_order (fun _ => .ok ⟨200, "hist"⟩) "http://x" "e1" true).1
      "up" (by decide) (by decide),
   (c6_history_sort_order (fun _ => .ok ⟨200, "hist"⟩) "http://x" "e1" true).2
      "asc" (Or.inl rfl)⟩

/-- C7: on a 404 response, `GetEntity` and `GetEntityHistory` return an
absent result (`.ok none`, the Go `(nil, nil)`) with no error; on any status
other than 200 and 404 they return an error whose message carries the
status code. -/
theorem c7_not_found_mapping (net : HttpRequest → Except String HttpResponse)
    (address eid sortOrder : String) (withDocs : Bool) (resp : HttpResponse) :
    (net (getEntityReq address eid) = .ok resp →
      (resp.statusCode = 404 →
        GetEntity net address eid = ([getEntityReq address eid], .ok none))
      ∧ (resp.statusCode ≠ 200 → resp.statusCode ≠ 404 →
        GetEntity net address eid = ([getEntityReq address eid],
          .error ("unknown http response returned fetching entity, status="
                    ++ toString resp.statusCode))))
    ∧ ((sortOrder = "asc" ∨ sortOrder = "desc") →
       net (getEntityHistoryReq address eid sortOrder withDocs) = .ok resp →
      (resp.statusCode = 404 →
        GetEntityHistory net address eid sortOrder withDocs
          = ([getEntityHistoryReq address eid sortOrder withDocs], .ok none))
      ∧ (resp.statusCode ≠ 200 → resp.statusCode ≠ 404 →
        GetEntityHistory net address eid sortOrder withDocs
          = ([getEntityHistoryReq address eid sortOrder withDocs],
             .error ("unknown status code (" ++ toString resp.statusCode
                       ++ "), response=" ++ resp.body)))) := by
  constructor
  · intro hnet
    constructor
    · intro h404
      simp [GetEntity, hnet, h404]
    · intro h200 h404
      simp [GetEntity, hnet, h200, h404]
  · intro hso hnet
    have hcond : ¬(sortOrder ≠ "asc" ∧ sortOrder ≠ "desc") := by
      rcases hso with h | h <;> simp [h]
    constructor
    · intro h404
      simp [GetEntityHistory, hcond, hnet, h404]
    · intro h200 h404
      simp [GetEntityHistory, hcond, hnet, h200, h404]

/-- Witness for C7 at concrete 404 and 500/503 responses. -/
theorem c7_witness :
    GetEntity (fun _ => .ok ⟨404, "nf"⟩) "http://x" "e1"
      = ([getEntityReq "http://x" "e1"], .ok none)
    ∧ GetEntity (fun _ => .ok ⟨500, "boom"⟩) "http://x" "e1"
      = ([getEntityReq "http://x" "e1"],
         .error "unknown http response returned fetching entity, status=500")
    ∧ GetEntityHistory (fun _ => .ok ⟨404, "nf"⟩) "http://x" "e1" "desc" false
      = ([getEntityHistoryReq "http://x" "e1" "desc" false], .ok none)
    ∧ GetEntityHistory (fun _ => .ok ⟨503, "busy"⟩) "http://x" "e1" "desc" false
      = ([getEntityHistoryReq "http://x" "e1" "desc" false],
         .error "unknown status code (503), response=busy") :=
  ⟨((c7_not_found_mapping (fun _ => .ok ⟨404, "nf"⟩) "http://x" "e1" "desc" false
      ⟨404, "nf"⟩).1 rfl).1 rfl,
   ((c7_not_found_mapping (fun _ => .ok ⟨500, "boom"⟩) "http://x" "e1" "desc" false
      ⟨500, "boom"⟩).1 rfl).2 (by decide) (by decide),
   ((c7_not_found_mapping (fun _ => .ok ⟨404, "nf"⟩) "http://x" "e1" "desc" false
      ⟨404, "nf"⟩).2 (Or.inr rfl) rfl).1 rfl,
   ((c7_not_found_mapping (fun _ => .ok ⟨503, "busy"⟩) "http://x" "e1" "desc" false
      ⟨503, "busy"⟩).2 (Or.inr rfl) rfl).2 (by decide) (by decide)⟩

theorem putOps_first_error {α : Type} (marshal : α → Except String String)
    (x : α) (post : List α) (e : String) (hx : marshal x = .error e) :
    ∀ pre : List α, (∀ y ∈ pre, ∃ s, marshal y = .ok s) →
      putOps marshal (pre ++ x :: post) = .error e := by
  intro pre
  induction pre with
  | nil => intro _; simp [putOps, hx]
  | cons y pre ih =>
      intro hpre
      obtain ⟨s, hs⟩ := hpre y (List.mem_cons_self _ _)
      have := ih (fun z hz => hpre z (List.mem_cons_of_mem _ hz))
      simp [putOps, hs, this]

/-- C8: if some record of the batch cannot be EDN-marshalled while every
record before it can, `buildTrxPutEdn` fails with exactly that record's
marshalling error and emits no envelope, and `SubmitPutTx` returns that
error before issuing any HTTP request. -/
theorem c8_put_encoding_error {α : Type} (marshal : α → Except String String)
    (net : HttpRequest → Except String HttpResponse)
    (decodeTx : String → TxResponse × Option String) (address : String)
    (pre post : List α) (x : α) (e : String)
    (hpre : ∀ y ∈ pre, ∃ s, marshal y = .ok s) (hx : marshal x = .error e) :
    buildTrxPutEdn marshal (pre ++ x :: post) = .error e
    ∧ SubmitPutTx marshal net decodeTx address (pre ++ x :: post) = ([], [], .error e) := by
  have hops := putOps_first_error marshal x post e hx pre hpre
  constructor
  · simp [buildTrxPutEdn, hops]
  · simp [SubmitPutTx, buildTrxPutEdn, hops]

/-- Witness for C8: a two-record batch whose second record cannot be
marshalled. -/
theorem c8_witness :
    buildTrxPutEdn (fun b : Bool => if b then .ok "rec" else .error "unsupported type")
        [true, false] = .error "unsupported type"
    ∧ SubmitPutTx (fun b : Bool => if b then .ok "rec" else .error "unsupported type")
        (fun _ => .ok ⟨202, "receipt"⟩) (fun _ => (⟨0, 0⟩, none)) "http://x"
        [true, false] = ([], [], .error "unsupported type") :=
  c8_put_encoding_error (fun b : Bool => if b then .ok "rec" else .error "unsupported type")
    (fun _ => .ok ⟨202, "receipt"⟩) (fun _ => (⟨0, 0⟩, none)) "http://x"
    [true] [] false "unsupported type"
    (fun y hy => by
      cases hy with
      | head => exact ⟨"rec", rfl⟩
      | tail _ h => cases h)
    rfl

/-- C4: a submission whose response status is 202 returns success to the
caller regardless of the receipt decoder's outcome and of the `AwaitTx`
outcome, for `SubmitPutTx`, `SubmitEvictTx` and `PersistEntities`; when the
decode fails and the await fails, both failure messages land only in the log
component while the decoded receipt is still returned. -/
theorem c4_accepted_success {α β : Type} (marshal : α → Except String String)
    (jsonMarshalEnvelope : List β → Except String String)
    (net : HttpRequest → Except String HttpResponse)
    (decodeTx : String → TxResponse × Option String)
    (address : String) (trxs : List α) (xtIDs : List String)
    (payloads : List β) (body pbody : String) (resp : HttpResponse)
    (h202 : resp.statusCode = 202) :
    (buildTrxPutEdn marshal trxs = .ok body →
       net (submitTxReq address body) = .ok resp →
       (SubmitPutTx marshal net decodeTx address trxs).2.2
         = .ok (decodeTx resp.body).1)
    ∧ (xtIDs ≠ [] →
       net (submitTxReq address (buildTrxEvictEdn xtIDs)) = .ok resp →
       (SubmitEvictTx net decodeTx address xtIDs).2.2
         = .ok (decodeTx resp.body).1)
    ∧ (buildPersistPayload jsonMarshalEnvelope payloads = .ok pbody →
       net (persistTxReq address pbody) = .ok resp →
       (PersistEntities jsonMarshalEnvelope net decodeTx address payloads).2.2
         = .ok (decodeTx resp.body).1.txId)
    ∧ (∀ respBody derr awaitErr,
       (decodeTx respBody).2 = some derr →
       (decodeTx respBody).1.txId > 0 →
       AwaitTx net address (decodeTx respBody).1.txId = .error awaitErr →
       handleAccepted net decodeTx address respBody
         = ([awaitTxReq address (decodeTx respBody).1.txId],
            ["error decoding transaction response, err=" ++ derr, awaitErr],
            (decodeTx respBody).1)) := by
  refine ⟨?_, ?_, ?_, ?_⟩
  · intro hbuild hnet
    simp [SubmitPutTx, hbuild, hnet, h202, handleAccepted]
    split <;> split <;> simp
  · intro hne hnet
    have he : xtIDs.isEmpty = false := by
      cases xtIDs with
      | nil => exact absurd rfl hne
      | cons a l => rfl
    simp [SubmitEvictTx, he, hnet, h202, handleAccepted]
    split <;> split <;> simp
  · intro hbuild hnet
    simp [PersistEntities, hbuild, hnet, h202, handleAccepted]
    split <;> split <;> simp
  · intro respBody derr awaitErr hdec hpos hawait
    simp [handleAccepted, hdec, hpos, hawait]

/-- Witness for C4: the receipt decoder reports an error while yielding a
receipt with id 5, and the await request comes back 500; all three submit
paths still return success. -/
theorem c4_witness :
    (SubmitPutTx (fun _ : Unit => .ok "rec")
        (fun r => if r.method = "POST" then .ok ⟨202, "receipt"⟩ else .ok ⟨500, "await down"⟩)
        (fun _ => (⟨5, 0⟩, some "bad edn")) "http://x" [()]).2.2
      = .ok ⟨5, 0⟩
    ∧ (SubmitEvictTx
        (fun r => if r.method = "POST" then .ok ⟨202, "receipt"⟩ else .ok ⟨500, "await down"⟩)
        (fun _ => (⟨5, 0⟩, some "bad edn")) "http://x" ["id1"]).2.2
      = .ok ⟨5, 0⟩
    ∧ (PersistEntities (fun _ : List Unit => .ok "payload")
        (fun r => if r.method = "POST" then .ok ⟨202, "receipt"⟩ else .ok ⟨500, "await down"⟩)
        (fun _ => (⟨5, 0⟩, some "bad edn")) "http://x" [()]).2.2
      = .ok 5 :=
  ⟨(c4_accepted_success (fun _ : Unit => .ok "rec") (fun _ : List Unit => .ok "payload")
      (fun r => if r.method = "POST" then .ok ⟨202, "receipt"⟩ else .ok ⟨500, "await down"⟩)
      (fun _ => (⟨5, 0⟩, some "bad edn")) "http://x" [()] ["id1"] [()]
      "\x7b:tx-ops [[:xtdb.api/put rec]]\x7d" "payload" ⟨202, "receipt"⟩ rfl).1 rfl rfl,
   (c4_accepted_success (fun _ : Unit => .ok "rec") (fun _ : List Unit => .ok "payload")
      (fun r => if r.method = "POST" then .ok ⟨202, "receipt"⟩ else .ok ⟨500, "await down"⟩)
      (fun _ => (⟨5, 0⟩, some "bad edn")) "http://x" [()] ["id1"] [()]
      "\x7b:tx-ops [[:xtdb.api/put rec]]\x7d" "payload" ⟨202, "receipt"⟩ rfl).2.1
      (by decide) rfl,
   (c4_accepted_success (fun _ : Unit => .ok "rec") (fun _ : List Unit => .ok "payload")
      (fun r => if r.method = "POST" then .ok ⟨202, "receipt"⟩ else .ok ⟨500, "await down"⟩)
      (fun _ => (⟨5, 0⟩, some "bad edn")) "http://x" [()] ["id1"] [()]
      "\x7b:tx-ops [[:xtdb.api/put rec]]\x7d" "payload" ⟨202, "receipt"⟩ rfl).2.2.1
      rfl rfl⟩

theorem queryModel_normalizes {Row : Type}
    (decode : String → Except String (List (List Row)))
    (encode : List Row → Except String String)
    (net : HttpRequest → Except String HttpResponse)
    (address q ct : String) (resp : HttpResponse) (p : List (List Row))
    (hnet : net (queryReq address q ct) = .ok resp)
    (hdec : decode resp.body = .ok p) (hne : ∀ l ∈ p, l ≠ []) :
    ∃ r, normalizeRows p = some r ∧ r.length = p.length
      ∧ r.map some = p.map List.head?
      ∧ queryModel decode encode net address q ct = exceptToGo (encode r) := by
  obtain ⟨r, hr, hlen, hheads⟩ := normalizeRows_heads p hne
  refine ⟨r, hr, hlen, hheads, ?_⟩
  simp only [queryModel, queryRequest, hnet, hdec, hr]
  cases encode r with
  | error e => rfl
  | ok s => rfl

/-- C2: when the response decodes as N rows of M > 1 columns each, `Query`
(EDN) and `QueryAsJson` (JSON) return exactly N elements, the i-th being the
first column of the i-th row, re-serialized with the chosen encoding's
serializer. -/
theorem c2_query_normalization {Row : Type}
    (ednDecode jsonDecode : String → Except String (List (List Row)))
    (ednEncode jsonEncode : List Row → Except String String)
    (net : HttpRequest → Except String HttpResponse)
    (address q : String) (N M : Nat) (hM : 1 < M) :
    (∀ resp (p : List (List Row)),
       net (queryReq address q "application/edn") = .ok resp →
       ednDecode resp.body = .ok p → p.length = N → (∀ l ∈ p, l.length = M) →
       ∃ r, r.length = N ∧ r.map some = p.map List.head?
         ∧ Query ednDecode ednEncode net address q = exceptToGo (ednEncode r))
    ∧ (∀ resp (p : List (List Row)),
       net (queryReq address q "application/json") = .ok resp →
       jsonDecode resp.body = .ok p → p.length = N → (∀ l ∈ p, l.length = M) →
       ∃ r, r.length = N ∧ r.map some = p.map List.head?
         ∧ QueryAsJson jsonDecode jsonEncode net address q = exceptToGo (jsonEncode r)) := by
  constructor
  · intro resp p hnet hdec hN hMl
    have hne : ∀ l ∈ p, l ≠ [] := by
      intro l hl hnil
      have := hMl l hl
      rw [hnil] at this
      simp at this
      omega
    obtain ⟨r, _, hlen, hheads, hq⟩ :=
      queryModel_normalizes ednDecode ednEncode net address q "application/edn"
        resp p hnet hdec hne
    exact ⟨r, by rw [hlen, hN], hheads, hq⟩
  · intro resp p hnet hdec hN hMl
    have hne : ∀ l ∈ p, l ≠ [] := by
      intro l hl hnil
      have := hMl l hl
      rw [hnil] at this
      simp at this
      omega
    obtain ⟨r, _, hlen, hheads, hq⟩ :=
      queryModel_normalizes jsonDecode jsonEncode net address q "application/json"
        resp p hnet hdec hne
    exact ⟨r, by rw [hlen, hN], hheads, hq⟩

/-- Witness for C2: a 2-row, 2-column result over `Nat` rows for both the
EDN and the JSON path. -/
theorem c2_witness :
    (∃ r : List Nat, r.length = 2 ∧ r.map some = [[1, 2], [3, 4]].map List.head?
       ∧ Query (fun _ => .ok [[1, 2], [3, 4]]) (fun r => .ok (toString r))
           (fun _ => .ok ⟨200, "body"⟩) "http://x" "qry"
         = exceptToGo (.ok (toString r)))
    ∧ (∃ r : List Nat, r.length = 2 ∧ r.map some = [[1, 2], [3, 4]].map List.head?
       ∧ QueryAsJson (fun _ => .ok [[1, 2], [3, 4]]) (fun r => .ok (toString r))
           (fun _ => .ok ⟨200, "body"⟩) "http://x" "qry"
         = exceptToGo (.ok (toString r))) := by
  constructor
  · obtain ⟨r, h1, h2, h3⟩ :=
      (c2_query_normalization (fun _ => (.ok [[1, 2], [3, 4]] : Except String (List (List Nat))))
        (fun _ => .ok [[1, 2], [3, 4]]) (fun r => .ok (toString r))
        (fun r => .ok (toString r)) (fun _ => .ok ⟨200, "body"⟩) "http://x" "qry"
        2 2 (by decide)).1 ⟨200, "body"⟩ [[1, 2], [3, 4]] rfl rfl rfl
        (by intro l hl; fin_cases hl <;> rfl)
    exact ⟨r, h1, h2, h3⟩
  · obtain ⟨r, h1, h2, h3⟩ :=
      (c2_query_normalization (fun _ => (.ok [[1, 2], [3, 4]] : Except String (List (List Nat))))
        (fun _ => .ok [[1, 2], [3, 4]]) (fun r => .ok (toString r))
        (fun r => .ok (toString r)) (fun _ => .ok ⟨200, "body"⟩) "http://x" "qry"
        2 2 (by decide)).2 ⟨200, "body"⟩ [[1, 2], [3, 4]] rfl rfl rfl
        (by intro l hl; fin_cases hl <;> rfl)
    exact ⟨r, h1, h2, h3⟩

/-- C10: the normalization of `Query`/`QueryAsJson` indexes `l[0]` of every
decoded row unconditionally: it is total exactly when every row is
non-empty, and a decoded result containing a zero-column row makes the call
panic (a `GoResult.panicked`, not a returned error). -/
theorem c10_first_column_panic {Row : Type}
    (ednDecode jsonDecode : String → Except String (List (List Row)))
    (ednEncode jsonEncode : List Row → Except String String)
    (net : HttpRequest → Except String HttpResponse)
    (address q : String) (resp : HttpResponse) (p : List (List Row)) :
    ((∀ l ∈ p, l ≠ []) → ∃ r, normalizeRows p = some r)
    ∧ ([] ∈ p → normalizeRows p = none)
    ∧ ([] ∈ p → net (queryReq address q "application/edn") = .ok resp →
        ednDecode resp.body = .ok p →
        Query ednDecode ednEncode net address q = .panicked)
    ∧ ([] ∈ p → net (queryReq address q "application/json") = .ok resp →
        jsonDecode resp.body = .ok p →
        QueryAsJson jsonDecode jsonEncode net address q = .panicked) := by
  refine ⟨?_, normalizeRows_of_mem_nil p, ?_, ?_⟩
  · intro hne
    obtain ⟨r, hr, -, -⟩ := normalizeRows_heads p hne
    exact ⟨r, hr⟩
  · intro hmem hnet hdec
    simp [Query, queryModel, queryRequest, hnet, hdec, normalizeRows_of_mem_nil p hmem]
  · intro hmem hnet hdec
    simp [QueryAsJson, queryModel, queryRequest, hnet, hdec, normalizeRows_of_mem_nil p hmem]

/-- Witness for C10: a result whose second row has zero columns makes both
query paths panic. -/
theorem c10_witness :
    Query (fun _ => .ok [[1], ([] : List Nat)]) (fun r => .ok (toString r))
        (fun _ => .ok ⟨200, "body"⟩) "http://x" "qry" = .panicked
    ∧ QueryAsJson (fun _ => .ok [[1], ([] : List Nat)]) (fun r => .ok (toString r))
        (fun _ => .ok ⟨200, "body"⟩) "http://x" "qry" = .panicked :=
  ⟨(c10_first_column_panic (fun _ => .ok [[1], ([] : List Nat)])
      (fun _ => .ok [[1], ([] : List Nat)]) (fun r => .ok (toString r))
      (fun r => .ok (toString r)) (fun _ => .ok ⟨200, "body"⟩) "http://x" "qry"
      ⟨200, "body"⟩ [[1], []]).2.2.1 (by simp) rfl rfl,
   (c10_first_column_panic (fun _ => .ok [[1], ([] : List Nat)])
      (fun _ => .ok [[1], ([] : List Nat)]) (fun r => .ok (toString r))
      (fun r => .ok (toString r)) (fun _ => .ok ⟨200, "body"⟩) "http://x" "qry"
      ⟨200, "body"⟩ [[1], []]).2.2.2 (by simp) rfl rfl⟩

/-- C3 fails as stated: the query request built for a JSON response carries
`accept: application/json` but `content-type: application/edn`, so its two
headers never name one single encoding. -/
theorem c3_counterexample :
    ¬ reqMatchesSingleEncoding (queryReq "http://x" "qry" "application/json") := by
  rintro ⟨enc, h1, h2⟩
  simp only [reqMatchesSingleEncoding, queryReq, headerVal, List.find?] at h1 h2
  simp at h1 h2
  subst h1
  exact absurd h2 (by decide)

/-- C3 amended: the submit and persist requests set both accept and
content-type to their one chosen encoding; the query request always sends an
EDN content-type with the accept header set to the chosen response encoding;
the entity GET requests set only an EDN accept header and no content-type;
`AwaitTx` and `Sync` requests set no explicit headers at all. -/
theorem c3_headers_amended (address body eid sortOrder q ct : String)
    (withDocs : Bool) (txID : Int) (timeoutMs : Nat) :
    (headerVal (submitTxReq address body) "accept" = some "application/edn"
      ∧ headerVal (submitTxReq address body) "content-type" = some "application/edn")
    ∧ (headerVal (persistTxReq address body) "accept" = some "application/json"
      ∧ headerVal (persistTxReq address body) "content-type" = some "application/json")
    ∧ (headerVal (queryReq address q ct) "accept" = some ct
      ∧ headerVal (queryReq address q ct) "content-type" = some "application/edn")
    ∧ (headerVal (getEntityReq address eid) "accept" = some "application/edn"
      ∧ headerVal (getEntityReq address eid) "content-type" = none)
    ∧ (headerVal (getEntityHistoryReq address eid sortOrder withDocs) "accept"
        = some "application/edn"
      ∧ headerVal (getEntityHistoryReq address eid sortOrder withDocs) "content-type" = none)
    ∧ (awaitTxReq address txID).headers = []
    ∧ (syncReq address timeoutMs).headers = [] := by
  refine ⟨⟨?_, ?_⟩, ⟨?_, ?_⟩, ⟨?_, ?_⟩, ⟨?_, ?_⟩, ⟨?_, ?_⟩, rfl, rfl⟩ <;>
    simp [headerVal, submitTxReq, persistTxReq, queryReq, getEntityReq,
      getEntityHistoryReq, List.find?]

theorem syncMainLoop_allFail (polls : Nat → Poll) (T : Nat)
    (hfail : ∀ n, (polls n).out ≠ .success) :
    ∀ fuel i e acc, syncMainLoop polls T fuel i e acc
      = (T, syncErrOf (acc ++ syncRecordedLoop polls T fuel i e)) := by
  intro fuel
  induction fuel with
  | zero => intro i e acc; simp [syncMainLoop, syncRecordedLoop]
  | succ f ih =>
      intro i e acc
      by_cases hT : T ≤ e
      · simp [syncMainLoop, syncRecordedLoop, hT]
      · by_cases hc : e + (polls i).dur < T
        · simp only [syncMainLoop, syncRecordedLoop, if_neg hT, if_neg (hfail i),
            if_pos hc, ih]
          simp
        · simp [syncMainLoop, syncRecordedLoop, hT, hfail i, hc]

theorem attemptStart_le_succ (polls : Nat → Poll) (k : Nat) :
    attemptStart polls k ≤ attemptStart polls (k + 1) := by
  cases k with
  | zero => exact Nat.le_refl 0
  | succ n =>
      show attemptStart polls (n + 1) ≤ attemptStart polls (n + 1) + (polls (n + 1)).dur + 2
      omega

theorem attemptStart_mono (polls : Nat → Poll) : Monotone (attemptStart polls) :=
  monotone_nat_of_le_succ (attemptStart_le_succ polls)

theorem attemptStart_lb (polls : Nat → Poll) :
    ∀ k, 1 ≤ k → 2 * (k - 1) ≤ attemptStart polls k := by
  intro k
  induction k with
  | zero => intro h; omega
  | succ n ih =>
      intro _
      cases n with
      | zero => simp [attemptStart]
      | succ m =>
          have hm := ih (by omega)
          show 2 * (m + 2 - 1) ≤ attemptStart polls (m + 1) + (polls (m + 1)).dur + 2
          omega

theorem syncMainLoop_success (polls : Nat → Poll) (T k : Nat)
    (hfail : ∀ j, 1 ≤ j → j < k → (polls j).out ≠ .success)
    (hsucc : (polls k).out = .success)
    (hT : attemptStart polls k + (polls k).dur < T) :
    ∀ n j fuel acc, 1 ≤ j → j + n = k → n < fuel →
      syncMainLoop polls T fuel j (attemptStart polls j) acc
        = (attemptStart polls k + (polls k).dur, none) := by
  intro n
  induction n with
  | zero =>
      intro j fuel acc hj hjk hfuel
      obtain rfl : j = k := by omega
      cases fuel with
      | zero => omega
      | succ f =>
          have he : ¬ T ≤ attemptStart polls j := by
            have h := Nat.le_add_right (attemptStart polls j) (polls j).dur
            omega
          simp [syncMainLoop, he, hsucc, hT]
  | succ m ih =>
      intro j fuel acc hj hjk hfuel
      have hjk' : j < k := by omega
      have hfj : (polls j).out ≠ .success := hfail j hj hjk'
      cases fuel with
      | zero => omega
      | succ f =>
          have hmono : attemptStart polls (j + 1) ≤ attemptStart polls k :=
            attemptStart_mono polls (by omega)
          have hstep : attemptStart polls (j + 1) = attemptStart polls j + (polls j).dur + 2 := by
            cases j with
            | zero => omega
            | succ i => rfl
          have hlt : attemptStart polls j + (polls j).dur < T := by
            have h := Nat.le_add_right (attemptStart polls k) (polls k).dur
            omega
          have hne : ¬ T ≤ attemptStart polls j := by omega
          have hrec := ih (j + 1) f (acc ++ [pollFailMsg j (polls j).out])
            (by omega) (by omega) (by omega)
          simp only [syncMainLoop, if_neg hne, if_neg hfj, if_pos hlt]
          rw [← hstep]
          exact hrec

/-- C1 amended: if every poll fails, `Sync(timeout = T)` returns at the
deadline `T` with the recorded per-attempt failures joined as its error —
which is no error at all when no failed attempt completed before the
deadline; if attempt `k` is the first to succeed and it completes before the
deadline, the call returns at that completion instant (before `T`), discards
the failure log, and returns no error. -/
theorem c1_sync_amended (polls : Nat → Poll) (T : Nat) :
    ((∀ n, (polls n).out ≠ .success) →
       syncMainRun polls T = (T, syncErrOf (syncRecorded polls T)))
    ∧ (∀ k, 1 ≤ k → (∀ j, 1 ≤ j → j < k → (polls j).out ≠ .success) →
        (polls k).out = .success →
        attemptStart polls k + (polls k).dur < T →
        syncMainRun polls T = (attemptStart polls k + (polls k).dur, none)) := by
  constructor
  · intro hfail
    have h := syncMainLoop_allFail polls T hfail (T + 1) 1 0 []
    simpa [syncMainRun, syncRecorded] using h
  · intro k hk hfail hsucc hT
    have hlb := attemptStart_lb polls k hk
    have hfuel : k - 1 < T + 1 := by
      have hle := Nat.le_add_right (attemptStart polls k) (polls k).dur
      omega
    have h := syncMainLoop_success polls T k hfail hsucc hT (k - 1) 1 (T + 1) []
      (Nat.le_refl 1) (by omega) hfuel
    simpa [syncMainRun, attemptStart] using h

/-- C1 fails as stated: with timeout 1 and every poll a failing network call
of duration 2, the first failure is appended to the log only after the
deadline has fired, so the call returns at the deadline with NO error even
though every poll attempt failed. -/
theorem c1_sync_counterexample :
    (∀ n, ((fun _ : Nat => Poll.mk 2 (PollOutcome.netErr "connection refused")) n).out
        ≠ PollOutcome.success)
    ∧ syncMainRun (fun _ : Nat => Poll.mk 2 (PollOutcome.netErr "connection refused")) 1
        = (1, none) :=
  ⟨fun _ => by simp, by decide⟩

/-- Witness for C1 (amended): an all-fail run returns at the deadline with
exactly the recorded failures, and a run whose first poll succeeds after 3
units returns at instant 3, before the deadline 9, with no error. -/
theorem c1_sync_witness :
    syncMainRun (fun _ => Poll.mk 0 (PollOutcome.badStatus 503 "busy")) 5
      = (5, syncErrOf (syncRecorded (fun _ => Poll.mk 0 (PollOutcome.badStatus 503 "busy")) 5))
    ∧ syncMainRun (fun _ => Poll.mk 3 PollOutcome.success) 9 = (3, none) := by
  constructor
  · exact (c1_sync_amended (fun _ => Poll.mk 0 (PollOutcome.badStatus 503 "busy")) 5).1
      (fun _ => by simp)
  · exact (c1_sync_amended (fun _ => Poll.mk 3 PollOutcome.success) 9).2 1 (Nat.le_refl 1)
      (fun j h1 h2 => absurd h2 (Nat.not_lt.mpr h1)) rfl (by decide)

/-- C9 fails on the code: once the context deadline has passed, the polling
goroutine's select always finds `ctx.Done()` ready, appends
"timeout reached" and loops again without breaking out; when no poll ever
succeeds the goroutine therefore never terminates, however many loop
iterations it is given. -/
theorem c9_goroutine_divergence (polls : Nat → Poll) (T : Nat)
    (hfail : ∀ n, (polls n).out ≠ .success) :
    ∀ fuel i e acc, syncGoroutineLoop polls T fuel i e acc = none := by
  intro fuel
  induction fuel with
  | zero => intro i e acc; rfl
  | succ f ih =>
      intro i e acc
      by_cases hT : T ≤ e
      · simp only [syncGoroutineLoop, if_pos hT]
        exact ih i e (acc ++ ["timeout reached"])
      · simp only [syncGoroutineLoop, if_neg hT, if_neg (hfail i)]
        exact ih (i + 1) (e + (polls i).dur + 2) (acc ++ [pollFailMsg i (polls i).out])

/-- Witness for C9: with deadline 1 and every poll failing, the goroutine is
still looping after 100 iterations. -/
theorem c9_witness :
    syncGoroutineLoop (fun _ => Poll.mk 0 (PollOutcome.netErr "conn reset")) 1 100 1 0 []
      = none :=
  c9_goroutine_divergence (fun _ => Poll.mk 0 (PollOutcome.netErr "conn reset")) 1
    (fun _ => by simp) 100 1 0 []

end XtdbClient
